import Mathlib

/-!
Shallow embedding of the column-resolution and QC pipeline of
`src/munge_sumstats.rs` (the `munge_sumstats` binary of the ldscrs
repository), together with theorems settling the frozen claims about it.

Modelling conventions:
* Rust `HashMap<String, String>` values are embedded extensionally as
  partial functions `String → Option String` (a `HashMap` is exactly a
  finite partial function; none of the embedded code depends on
  iteration order in an observable way, except where noted).
* `f64` arithmetic is idealised as exact arithmetic over `ℚ`; the
  operations the claims exercise (comparison, negation, addition,
  division) are order- and sign-exact, and no claim is about rounding.
* Polars `DataFrame`s are embedded as lists of records (`Row`) for the
  row-filter pipeline `parse_dat`, and as a record of optional columns
  (`NFrame`) for the sample-size resolver `process_n`, which operates
  columnwise.  A missing column is `none`; a null entry inside a
  present column is a `none` element.
* Fallible Rust code returning `Result` is embedded as `Except String`.
-/

namespace MS

/-- Whitespace characters removed by `str::trim`. -/
def is_ws (c : Char) : Bool :=
  c = ' ' || c = '\t' || c = '\n' || c = '\r'

/-- The per-character effect of the three `replace` calls of
`clean_header`: `-` and `.` become `_`, `\n` is removed, everything else
is kept.  A `replace` whose pattern is a single character is exactly a
character-wise map/removal. -/
def clean_char (c : Char) : Option Char :=
  if c = '-' then some '_'
  else if c = '.' then some '_'
  else if c = '\n' then none
  else some c

/-- Embeds `clean_header` (munge_sumstats.rs, lines 512-519): uppercase,
trim surrounding whitespace, replace `-` and `.` by `_`, strip newlines
(in the source order: `to_uppercase`, `trim`, the three `replace`s). -/
def clean_header (header : String) : String :=
  let up := header.data.map Char.toUpper
  let trimmed := ((up.dropWhile is_ws).reverse.dropWhile is_ws).reverse
  String.mk (trimmed.filterMap clean_char)

/-- Embeds `get_cname_map` (lines 468-484).  `flag` is the map built from
per-field override flags (keys already cleaned), `dflt` the (possibly
filtered) default synonym table, `ignore` the ignore-list entries.  In the
source the result is built by filtering `flag` by the cleaned ignore list
and then inserting every `dflt` entry whose key is neither ignored nor
already claimed; since all three inputs are maps with unique keys, the
resulting finite map is, extensionally, the function below. -/
def get_cname_map (flag : String → Option String) (dflt : String → Option String)
    (ignore : List String) : String → Option String :=
  fun k =>
    if (ignore.map clean_header).contains k then none
    else
      match flag k with
      | some v => some v
      | none => dflt k

/-- Embeds the construction of `cname_translation` (lines 169-179): a raw
file header `x` is mapped by looking up its cleaned spelling in the
resolved `cname_map`; headers not in the file are absent. -/
def cname_translation (colnames : List String) (cmap : String → Option String)
    (x : String) : Option String :=
  if colnames.contains x then cmap (clean_header x) else none

/-- One variant record of the ingested data frame, holding the canonical
columns `parse_dat` can see.  A column absent in a given run is tracked by
`Cols` below; a null entry of a present column is a `none` element.  `ma`
is the 2-character reference allele pair attached by the merge join. -/
structure Row where
  snp : Option String
  a1 : Option String
  a2 : Option String
  p : Option ℚ
  info : Option ℚ
  frq : Option ℚ
  signed : Option ℚ
  n : Option Int
  ncas : Option Int
  ncon : Option Int
  nstudy : Option ℚ
  ma : Option String
deriving DecidableEq, Repr

/-- Which optional canonical columns are present in the run.  `SNP` and
`P` are always present: the validator (lines 213-228) aborts otherwise
before `parse_dat` runs. -/
structure Cols where
  a : Bool
  info : Bool
  frq : Bool
  signed : Bool
  n : Bool
  ncas : Bool
  ncon : Bool
  nstudy : Bool
deriving DecidableEq, Repr

/-- The arguments `parse_dat` reads (subset of the CLI `Args`). -/
structure PArgs where
  info_min : ℚ
  maf_min : ℚ
  no_alleles : Bool
  keep_maf : Bool
deriving DecidableEq, Repr

/-- True when the row has no null in any present column other than INFO.
Embeds the null-drop subset of lines 627-638: `drop_nulls` over every
mapped column except the INFO column. -/
def row_complete (c : Cols) (r : Row) : Bool :=
  r.snp.isSome && r.p.isSome &&
    (!c.a || (r.a1.isSome && r.a2.isSome)) &&
    (!c.frq || r.frq.isSome) &&
    (!c.signed || r.signed.isSome) &&
    (!c.n || r.n.isSome) &&
    (!c.ncas || r.ncas.isSome) &&
    (!c.ncon || r.ncon.isSome) &&
    (!c.nstudy || r.nstudy.isSome)

/-- QC stage 1 (lines 627-646): drop rows with a missing value in any
mapped column except INFO. -/
def qc_na (c : Cols) (rows : List Row) : List Row :=
  rows.filter (row_complete c)

/-- QC stage 3 (lines 666-678): inner join with the `--merge-alleles`
table (columns `SNP`, `MA`) on the SNP key; one output row per matching
(row, reference entry) pair, so duplicated reference keys expand. -/
def qc_merge (m : List (String × String)) : List Row → List Row
  | [] => []
  | r :: rs =>
      ((m.filter (fun e => some e.1 = r.snp)).map (fun e => { r with ma := some e.2 }))
        ++ qc_merge m rs

/-- The merge stage runs only when a `--merge-alleles` table was given. -/
def qc_merge_opt (ma : Option (List (String × String))) (rows : List Row) : List Row :=
  match ma with
  | some m => qc_merge m rows
  | none => rows

/-- QC stage 4 (lines 690-715): if INFO resolved, keep rows with
`INFO >= info_min`; a null INFO fails the polars comparison and is
dropped here. -/
def qc_info (c : Cols) (a : PArgs) (rows : List Row) : List Row :=
  if c.info then
    rows.filter (fun r =>
      match r.info with
      | some v => a.info_min ≤ v
      | none => false)
  else rows

/-- QC stage 5 (lines 723-747): if FRQ resolved, keep rows with
`maf_min < FRQ ≤ 1 - maf_min`. -/
def qc_frq (c : Cols) (a : PArgs) (rows : List Row) : List Row :=
  if c.frq then
    rows.filter (fun r =>
      match r.frq with
      | some v => a.maf_min < v ∧ v ≤ 1 - a.maf_min
      | none => false)
  else rows

/-- Lines 754-760: drop the INFO column, and the FRQ column unless
`--keep-maf`; a pure column operation, no row change. -/
def qc_dropcols (c : Cols) (a : PArgs) (rows : List Row) : List Row :=
  rows.map (fun r =>
    { r with
      info := if c.info then none else r.info
      frq := if c.frq && !a.keep_maf then none else r.frq })

/-- QC stage 6 (lines 762-783): keep rows with `0 < P ≤ 1`. -/
def qc_p (rows : List Row) : List Row :=
  rows.filter (fun r =>
    match r.p with
    | some v => 0 < v ∧ v ≤ 1
    | none => false)

/-- The eight valid unambiguous single-nucleotide allele pairs
(`VALID_SNPS`, lines 786-790). -/
def VALID_SNPS : List String :=
  ["AC", "GT", "AG", "CA", "GA", "TG", "TC", "CT"]

/-- True when the concatenation `A1 ++ A2` is one of the eight valid
pairs; a null allele makes the polars `concat_str` null, which fails the
`is_in` filter. -/
def allele_ok (r : Row) : Bool :=
  match r.a1, r.a2 with
  | some x, some y => VALID_SNPS.contains (x ++ y)
  | _, _ => false

/-- QC stage 7 (lines 785-808): skipped under `--no-alleles`, otherwise
keep rows whose allele pair is valid. -/
def qc_alleles (a : PArgs) (rows : List Row) : List Row :=
  if a.no_alleles then rows else rows.filter allele_ok

/-- Indices of the rows carrying SNP key `key`, in order. -/
def occIdxs (key : Option String) (rows : List Row) : List ℕ :=
  (List.range rows.length).filter (fun i => (rows.get? i).map Row.snp = some key)

/-- The index of the occurrence of `key` retained by duplicate removal.
Polars `unique_stable(.., UniqueKeepStrategy::Any)` keeps an unspecified
occurrence per key; the choice is modelled by the parameter `sel`, reduced
modulo the number of occurrences so that every choice is an occurrence. -/
def chosenIdx (sel : Option String → ℕ) (rows : List Row) (key : Option String) : ℕ :=
  let l := occIdxs key rows
  l.getD (sel key % l.length) 0

/-- QC stage 8 (lines 817-830): `unique_stable` on the SNP column with
keep strategy `Any`: per SNP key exactly one occurrence (the one named by
`sel`) is retained, and retained rows stay in their original relative
order. -/
def qc_dup (sel : Option String → ℕ) (rows : List Row) : List Row :=
  (rows.enum.filter (fun ir => ir.1 = chosenIdx sel rows ir.2.snp)).map Prod.snd

/-- The pipeline through stage 7, in the fixed source order: null-drop,
(rename,) merge restriction, INFO filter, FRQ filter, column drops,
P filter, allele filter.  The rename stage (lines 649-653) only replaces
raw header spellings by canonical ones and is the identity on rows. -/
def qc_pre_dup (c : Cols) (a : PArgs) (ma : Option (List (String × String)))
    (rows : List Row) : List Row :=
  qc_alleles a (qc_p (qc_dropcols c a (qc_frq c a (qc_info c a (qc_merge_opt ma (qc_na c rows))))))

/-- Embeds `parse_dat` (lines 608-833): the stage pipeline, the fatal
`no SNPs remain` check of lines 810-812 (which runs before duplicate
removal), then duplicate removal. -/
def parse_dat (c : Cols) (a : PArgs) (ma : Option (List (String × String)))
    (sel : Option String → ℕ) (rows : List Row) : Except String (List Row) :=
  let d := qc_pre_dup c a ma rows
  if d.isEmpty then Except.error "After applying filters, no SNPs remain."
  else Except.ok (qc_dup sel d)

/-- Semantic model of lines 341-345: the P-to-Z values are produced by
`p_col.into_no_null_iter().par_bridge().map(|p| chi2.inverse_cdf(1.0 - p).sqrt()).collect()`.
Rayon's `par_bridge` yields an unindexed parallel iterator: every item is
mapped exactly once, but the order in which mapped items reach the
collected vector depends on the thread schedule.  The observable outputs
are therefore exactly the permutations of the in-order map; `f` stands
for the per-item map `p ↦ sqrt(chi2(1).inverse_cdf(1 - p))`. -/
def parMapCollect (f : ℚ → ℚ) (xs ys : List ℚ) : Prop :=
  List.Perm ys (xs.map f)

/-- Embeds the per-row sign step of lines 369-377: when both the signed
statistic and Z are present, Z is negated exactly when the signed
statistic is below the null value; otherwise the row gets `f64::NAN`,
modelled as `none`. -/
def sign_z_row (nullv : ℚ) (signed z : Option ℚ) : Option ℚ :=
  match signed, z with
  | some s, some zv => if s < nullv then some (-zv) else some zv
  | _, _ => none

/-- Embeds the column-level computation of lines 367-378: the SIGNED
column zipped with the Z column, mapped by `sign_z_row` (the zip
truncates to the shorter column, as `Iterator::zip` does). -/
def sign_z_col (nullv : ℚ) (signed z : List (Option ℚ)) : List (Option ℚ) :=
  List.zipWith (sign_z_row nullv) signed z

/-- Row totals `N = N_CAS + N_CON` (line 846, `i64` addition). -/
def n_totals (ncas ncon : List Int) : List Int :=
  List.zipWith (fun a b => a + b) ncas ncon

/-- Embeds lines 843-851: per-row case proportion `p = N_CAS / N` as
`f64`, the maximum observed total `max_n`, the mean `p_max_n` of `p` over
the rows with `N = max_n`, and the rescaled column `N_CAS / p_max_n`. -/
def process_n_cas_con (ncas ncon : List Int) : List ℚ :=
  let n := n_totals ncas ncon
  let p := List.zipWith (fun (a b : Int) => (a : ℚ) / (b : ℚ)) ncas n
  let maxn := (n.max?).getD 0
  let psel := ((List.zip p n).filter (fun pn => pn.2 = maxn)).map Prod.fst
  let pmax := psel.sum / (psel.length : ℚ)
  ncas.map (fun cv => (cv : ℚ) / pmax)

/-- Modelled from the spec wording of claim C5 (the sentence it is
compared against): the mean of `N_CAS / (N_CAS + N_CON)` taken over
exactly the rows whose total `N_CAS + N_CON` equals the maximum observed
total. -/
def p_max_spec (ncas ncon : List Int) : ℚ :=
  let m := ((n_totals ncas ncon).max?).getD 0
  let props := ((List.zip ncas ncon).filter (fun ab => ab.1 + ab.2 = m)).map
    (fun ab => (ab.1 : ℚ) / ((ab.1 : ℚ) + (ab.2 : ℚ)))
  props.sum / (props.length : ℚ)

/-- A data-frame column of sample sizes, tagged with its polars dtype:
`Int64` or `Float64`. -/
inductive NCol where
  | ints : List Int → NCol
  | floats : List ℚ → NCol
deriving DecidableEq, Repr

/-- Length of an `NCol`. -/
def ncol_len : NCol → ℕ
  | NCol.ints xs => xs.length
  | NCol.floats xs => xs.length

/-- The columnar view `process_n` works on: the sample-size family of
columns (`N_CAS`, `N_CON`, `N`, `NSTUDY`) plus the frame height.  The
remaining columns of the frame are filtered in lockstep in the source and
are not read by `process_n`. -/
structure NFrame where
  ncas : Option (List Int)
  ncon : Option (List Int)
  n : Option NCol
  nstudy : Option (List ℚ)
  height : ℕ
deriving DecidableEq, Repr

/-- The arguments `process_n` reads. -/
structure PNArgs where
  n : Option ℚ
  n_cas : Option ℚ
  n_con : Option ℚ
  n_min : Option ℚ
  nstudy_min : Option ℚ
deriving DecidableEq, Repr

/-- Embeds lines 843-854: when both `N_CAS` and `N_CON` are present,
replace `N` by the rescaled `Float64` column and drop `N_CAS`/`N_CON`
(`with_column` does not change the frame height). -/
def rescale_step (f : NFrame) : NFrame :=
  match f.ncas, f.ncon with
  | some ncas, some ncon =>
      { f with
        n := some (NCol.floats (process_n_cas_con ncas ncon))
        ncas := none
        ncon := none }
  | _, _ => f

/-- Keep the entries of an `N` column that are `≥ m` (the polars filter
`col("N").gt_eq(lit(n_min))`); the dtype is preserved. -/
def filter_n_ge (m : ℚ) : NCol → NCol
  | NCol.ints xs => NCol.ints (xs.filter (fun x => m ≤ (x : ℚ)))
  | NCol.floats xs => NCol.floats (xs.filter (fun x => m ≤ x))

/-- Replace the `N` column and record the new frame height. -/
def set_n (f : NFrame) (c : NCol) : NFrame :=
  { f with n := some c, height := ncol_len c }

/-- Polars `quantile(0.9, QuantileMethod::Linear)` over an `Int64`
column: linear interpolation at position `0.9 * (len - 1)` of the sorted
values. -/
def quantile09 (xs : List Int) : ℚ :=
  let s := (xs.insertionSort (fun a b => a ≤ b)).map (fun x => (x : ℚ))
  if s.length = 0 then 0
  else
    let pos : ℚ := (9 : ℚ) / 10 * ((s.length : ℚ) - 1)
    let lo := pos.floor.toNat
    let vlo := s.getD lo 0
    vlo + (pos - pos.floor) * (s.getD (lo + 1) vlo - vlo)

/-- Embeds lines 856-871: when the entry snapshot of the column list
contained `N`, filter on `N ≥ n_min`.  With no `--n-min` flag the default
is the 0.9 quantile of `N` read via `.i64()?` divided by 1.5: if `N` is a
`Float64` column at this point (it was just rescaled), `.i64()?` is a
dtype mismatch and the function returns the error. -/
def n_branch (a : PNArgs) (f1 : NFrame) : Except String NFrame :=
  match a.n_min with
  | some m =>
      match f1.n with
      | some c => Except.ok (set_n f1 (filter_n_ge m c))
      | none => Except.error "ColumnNotFound: N"
  | none =>
      match f1.n with
      | some (NCol.ints xs) =>
          Except.ok (set_n f1 (filter_n_ge (quantile09 xs / (3 / 2)) (NCol.ints xs)))
      | some (NCol.floats _) => Except.error "SchemaMismatch: expected Int64, got Float64"
      | none => Except.error "ColumnNotFound: N"

/-- Embeds lines 872-892: otherwise, when the snapshot contained `NSTUDY`
but not `N`, filter on `NSTUDY ≥ nstudy_min` (default: the maximum
observed value) and drop the NSTUDY column. -/
def nstudy_branch (a : PNArgs) (f1 : NFrame) : Except String NFrame :=
  match f1.nstudy with
  | some xs =>
      let m := a.nstudy_min.getD ((xs.max?).getD 0)
      let ys := xs.filter (fun x => m ≤ x)
      Except.ok { f1 with nstudy := none, height := ys.length }
  | none => Except.error "ColumnNotFound: NSTUDY"

/-- Embeds lines 894-909: when the snapshot contained no `N` column,
synthesize it as a `Float64` literal column from `--N`, else from
`--N-cas` plus `--N-con`, else fail with the internal-consistency
error. -/
def synth_n (a : PNArgs) (f2 : NFrame) : Except String NFrame :=
  match a.n with
  | some nv => Except.ok { f2 with n := some (NCol.floats (List.replicate f2.height nv)) }
  | none =>
      match a.n_cas, a.n_con with
      | some ca, some co =>
          Except.ok { f2 with n := some (NCol.floats (List.replicate f2.height (ca + co))) }
      | _, _ => Except.error "Cannot determine N. This message indicates a bug."

/-- Embeds `process_n` (lines 836-910).  The branch conditions test the
column list captured on entry (`colnames`, lines 837-841), not the frame
as it evolves: the source keeps using the snapshot after the rescale step
replaced columns. -/
def process_n (a : PNArgs) (f : NFrame) : Except String NFrame :=
  let cn_n := f.n.isSome
  let cn_nstudy := f.nstudy.isSome
  let f1 := if f.ncas.isSome && f.ncon.isSome then rescale_step f else f
  let step2 : Except String NFrame :=
    if cn_n then n_branch a f1
    else if cn_nstudy && !cn_n then nstudy_branch a f1
    else Except.ok f1
  match step2 with
  | Except.error e => Except.error e
  | Except.ok f2 => if !cn_n then synth_n a f2 else Except.ok f2

/-- Embeds the pre-write nonmissing-N count of lines 437-438:
`dat.column("N")?.i64()?` reads the `N` column as `Int64` and errors on a
`Float64` column or a missing column; on success it yields the number of
non-null entries.  It runs before `File::create` (line 445). -/
def nomiss_n_i64 : Option NCol → Except String ℕ
  | some (NCol.ints xs) => Except.ok xs.length
  | some (NCol.floats _) => Except.error "SchemaMismatch: expected Int64, got Float64"
  | none => Except.error "ColumnNotFound: N"

/-- Embeds the N-determinability validation of lines 246-254: `true` when
a `--N` flag, both `--N-cas` and `--N-con` flags, an `N` field, or both
`N_CAS` and `N_CON` fields are available. -/
def n_determinable (an acas acon : Option ℚ) (fields : List String) : Bool :=
  !(an.isNone && (acas.isNone || acon.isNone) &&
    !(fields.contains "N" || (fields.contains "N_CAS" && fields.contains "N_CON")))

/-- Embeds the post-read cast of lines 329-333:
`with_column(col("N").cast(DataType::Int64))` on the just-read frame,
whose column names are the raw headers selected by `cname_translation`.
Polars resolves `col("N")` by exact name: the step succeeds exactly when
some mapped raw header is literally `N`, and otherwise fails with
ColumnNotFound, aborting the read phase. -/
def cast_n_step (rawcols : List String) : Except String (List String) :=
  if rawcols.contains "N" then Except.ok rawcols
  else Except.error "ColumnNotFound: N"

/-- A concrete well-formed variant row used to instantiate theorems. -/
def wrow : Row :=
  { snp := some "rs1", a1 := some "A", a2 := some "C", p := some 1,
    info := none, frq := none, signed := some 1, n := some 7,
    ncas := none, ncon := none, nstudy := none, ma := none }

/-- A concrete column-presence configuration: SNP, P, A1/A2, the signed
statistic and N are present. -/
def wcols : Cols :=
  { a := true, info := false, frq := false, signed := true, n := true,
    ncas := false, ncon := false, nstudy := false }

/-- Concrete `parse_dat` arguments with the default thresholds. -/
def wargs : PArgs :=
  { info_min := 9 / 10, maf_min := 1 / 100, no_alleles := false, keep_maf := false }

theorem mem_occIdxs {j : ℕ} {k : Option String} {rows : List Row} :
    j ∈ occIdxs k rows ↔ j < rows.length ∧ (rows.get? j).map Row.snp = some k := by
  simp [occIdxs, List.mem_filter, List.mem_range]

theorem occIdxs_ne_nil {k : Option String} {rows : List Row}
    (hk : k ∈ rows.map Row.snp) : occIdxs k rows ≠ [] := by
  obtain ⟨r, hr, hsnp⟩ := List.mem_map.1 hk
  obtain ⟨j, hj⟩ := List.mem_iff_get?.1 hr
  obtain ⟨hlt, -⟩ := List.get?_eq_some.1 hj
  exact List.ne_nil_of_mem (mem_occIdxs.2 ⟨hlt, by rw [hj]; simp [hsnp]⟩)

theorem chosenIdx_mem (sel : Option String → ℕ) {rows : List Row} {k : Option String}
    (h : occIdxs k rows ≠ []) : chosenIdx sel rows k ∈ occIdxs k rows := by
  unfold chosenIdx
  have hlen : 0 < (occIdxs k rows).length := List.length_pos.2 h
  have hlt : sel k % (occIdxs k rows).length < (occIdxs k rows).length :=
    Nat.mod_lt _ hlen
  rw [List.getD_eq_getElem?_getD, List.getElem?_eq_getElem hlt]
  exact List.getElem_mem hlt

theorem qc_dup_sublist (sel : Option String → ℕ) (rows : List Row) :
    (qc_dup sel rows).Sublist rows := by
  have h1 : (rows.enum.filter
      (fun ir => ir.1 = chosenIdx sel rows ir.2.snp)).Sublist rows.enum :=
    List.filter_sublist _
  have h2 := h1.map Prod.snd
  rw [List.enum_map_snd] at h2
  exact h2

theorem qc_dup_count_key (sel : Option String → ℕ) (rows : List Row) {k : Option String}
    (hk : k ∈ rows.map Row.snp) :
    ((qc_dup sel rows).filter (fun r => r.snp = k)).length = 1 := by
  have hjm := chosenIdx_mem sel (occIdxs_ne_nil hk)
  obtain ⟨hjlt, hjsnp⟩ := mem_occIdxs.1 hjm
  obtain ⟨rj, hrj, hrjs⟩ : ∃ rj, rows.get? (chosenIdx sel rows k) = some rj ∧ rj.snp = k := by
    rcases hq : rows.get? (chosenIdx sel rows k) with - | rj
    · rw [hq] at hjsnp; simp at hjsnp
    · rw [hq] at hjsnp
      exact ⟨rj, rfl, by simpa using hjsnp⟩
  unfold qc_dup
  rw [List.filter_map, List.filter_filter]
  have hcongr : ∀ ir ∈ rows.enum,
      (((fun r => decide (r.snp = k)) ∘ Prod.snd) ir &&
        decide (ir.1 = chosenIdx sel rows ir.2.snp)) =
      (decide (ir.2.snp = k) && decide (ir.1 = chosenIdx sel rows k)) := by
    intro ir _
    by_cases hs : ir.2.snp = k
    · simp only [Function.comp, hs]
    · simp [Function.comp, hs]
  rw [List.filter_congr hcongr]
  rw [List.length_map]
  apply le_antisymm
  · have hsub : (rows.enum.filter
        (fun ir => decide (ir.2.snp = k) && decide (ir.1 = chosenIdx sel rows k))).Sublist
        rows.enum := List.filter_sublist _
    have hnd : ((rows.enum.filter
        (fun ir => decide (ir.2.snp = k) && decide (ir.1 = chosenIdx sel rows k))).map
          Prod.fst).Nodup := by
      have hmap := hsub.map Prod.fst
      rw [List.enum_map_fst] at hmap
      exact hmap.nodup (List.nodup_range _)
    have hall : ∀ x ∈ (rows.enum.filter
        (fun ir => decide (ir.2.snp = k) && decide (ir.1 = chosenIdx sel rows k))).map
          Prod.fst, x = chosenIdx sel rows k := by
      intro x hx
      obtain ⟨ir, hir, hx2⟩ := List.mem_map.1 hx
      have hpred := (List.mem_filter.1 hir).2
      simp only [Bool.and_eq_true, decide_eq_true_eq] at hpred
      exact hx2 ▸ hpred.2
    have hrep := List.eq_replicate_of_mem hall
    rw [hrep, List.nodup_replicate] at hnd
    calc (rows.enum.filter
          (fun ir => decide (ir.2.snp = k) && decide (ir.1 = chosenIdx sel rows k))).length
        = ((rows.enum.filter
          (fun ir => decide (ir.2.snp = k) && decide (ir.1 = chosenIdx sel rows k))).map
            Prod.fst).length := (List.length_map _ _).symm
      _ ≤ 1 := hnd
  · have hmem : (chosenIdx sel rows k, rj) ∈ rows.enum := by
      rw [List.mem_enum_iff_getElem?]
      rw [← List.get?_eq_getElem?]
      exact hrj
    have hmemF : (chosenIdx sel rows k, rj) ∈ rows.enum.filter
        (fun ir => decide (ir.2.snp = k) && decide (ir.1 = chosenIdx sel rows k)) :=
      List.mem_filter.2 ⟨hmem, by simp [hrjs]⟩
    exact List.length_pos.2 (List.ne_nil_of_mem hmemF)

theorem qc_dup_ne_nil (sel : Option String → ℕ) {rows : List Row} (h : rows ≠ []) :
    qc_dup sel rows ≠ [] := by
  obtain ⟨r, rs, rfl⟩ := List.exists_cons_of_ne_nil h
  have hk : r.snp ∈ ((r :: rs).map Row.snp) := by simp
  have h1 := qc_dup_count_key sel (r :: rs) hk
  intro hnil
  rw [hnil] at h1
  simp at h1

theorem allele_ok_iff (r : Row) :
    allele_ok r = true ↔
      ∃ x y, r.a1 = some x ∧ r.a2 = some y ∧ (x ++ y) ∈ VALID_SNPS := by
  rcases h1 : r.a1 with - | x <;> rcases h2 : r.a2 with - | y <;>
    simp [allele_ok, h1, h2, List.elem_iff]

/-- C1: the claim requires every permitted outcome of the parallel P-to-Z
computation to list the Z values in the rows' original order, i.e. that
`parMapCollect f xs ys` forces `ys = xs.map f`.  The collection step of
lines 341-345 (`par_bridge().map(..).collect()`) only guarantees a
permutation of the in-order map, and permutations other than the identity
are admitted, so the required implication is false. -/
theorem c1_par_bridge_order_not_guaranteed :
    ¬ ∀ (f : ℚ → ℚ) (xs ys : List ℚ), parMapCollect f xs ys → ys = xs.map f := by
  intro hall
  have h := hall (fun q => q) [0, 1] [1, 0] (by unfold parMapCollect; decide)
  simp at h

/-- C2: with a signed-statistic column in use, a row with both values
present gets `-Z` exactly when the signed statistic is strictly below the
null value and `Z` unchanged otherwise, and a row missing either value
gets the not-a-number sentinel (modelled as `none`); the per-row map is
total, hence non-fatal. -/
theorem c2_sign_flip (nullv s zv : ℚ) (so zo : Option ℚ) :
    (s < nullv → sign_z_row nullv (some s) (some zv) = some (-zv)) ∧
    (nullv ≤ s → sign_z_row nullv (some s) (some zv) = some zv) ∧
    (so = none ∨ zo = none → sign_z_row nullv so zo = none) := by
  refine ⟨fun h => ?_, fun h => ?_, fun h => ?_⟩
  · simp [sign_z_row, if_pos h]
  · simp [sign_z_row, if_neg (not_lt.2 h)]
  · rcases h with h | h
    · subst h; cases zo <;> simp [sign_z_row]
    · subst h; cases so <;> simp [sign_z_row]

/-- C2 witness: the spec example null = 0: a negative signed statistic
flips the sign of Z, a positive one keeps it, and a missing signed value
yields the sentinel. -/
theorem c2_sign_flip_witness :
    ((-3 : ℚ) / 10 < 0 ∧
      sign_z_row 0 (some ((-3 : ℚ) / 10)) (some (49 / 25)) = some (-(49 / 25))) ∧
    ((0 : ℚ) ≤ 3 / 10 ∧
      sign_z_row 0 (some ((3 : ℚ) / 10)) (some (49 / 25)) = some (49 / 25)) ∧
    sign_z_row 0 none (some (49 / 25)) = none :=
  ⟨⟨by norm_num, (c2_sign_flip 0 (-3 / 10) (49 / 25) none none).1 (by norm_num)⟩,
   ⟨by norm_num, (c2_sign_flip 0 (3 / 10) (49 / 25) none none).2.1 (by norm_num)⟩,
   (c2_sign_flip 0 0 0 none (some (49 / 25))).2.2 (Or.inl rfl)⟩

/-- C6: in the resolved mapping, any spelling on the ignore list is
absent (whatever the override and default tables say about it, and also
as a raw file header through `cname_translation`), and a header claimed
by both the override map and the default synonym table resolves to the
override's field. -/
theorem c6_resolution_priority (flag dflt : String → Option String)
    (ignore colnames : List String) :
    (∀ h0, h0 ∈ ignore →
      get_cname_map flag dflt ignore (clean_header h0) = none ∧
      ∀ x, clean_header x = clean_header h0 →
        cname_translation colnames (get_cname_map flag dflt ignore) x = none) ∧
    (∀ k v, k ∉ ignore.map clean_header → flag k = some v →
      get_cname_map flag dflt ignore k = some v) := by
  constructor
  · intro h0 hh0
    have hcont : ((ignore.map clean_header).contains (clean_header h0)) = true :=
      List.elem_iff.2 (List.mem_map_of_mem _ hh0)
    have hmap : get_cname_map flag dflt ignore (clean_header h0) = none := by
      unfold get_cname_map
      rw [if_pos hcont]
    refine ⟨hmap, fun x hx => ?_⟩
    unfold cname_translation
    split
    · rw [hx, hmap]
    · rfl
  · intro k v hk hf
    have hcont : ¬ (((ignore.map clean_header).contains k) = true) :=
      fun hc => hk (List.elem_iff.1 hc)
    unfold get_cname_map
    rw [if_neg hcont, hf]

/-- C6 witness: with ignore list `[Beta]`, the cleaned spelling `BETA` is
mapped to nothing even though the default table claims it, and the
override of `MYZ` wins over the default table's conflicting assignment
for that same header. -/
theorem c6_resolution_priority_witness :
    ("Beta" ∈ ["Beta"] ∧
      get_cname_map (fun k => if k = "MYZ" then some "SIGNED_SUMSTAT" else none)
        (fun k => if k = "BETA" then some "SIGNED_SUMSTAT"
          else if k = "MYZ" then some "INFO" else none)
        ["Beta"] (clean_header "Beta") = none) ∧
    ("MYZ" ∉ (["Beta"].map clean_header) ∧
      get_cname_map (fun k => if k = "MYZ" then some "SIGNED_SUMSTAT" else none)
        (fun k => if k = "BETA" then some "SIGNED_SUMSTAT"
          else if k = "MYZ" then some "INFO" else none)
        ["Beta"] "MYZ" = some "SIGNED_SUMSTAT") :=
  ⟨⟨by decide,
    ((c6_resolution_priority
      (fun k => if k = "MYZ" then some "SIGNED_SUMSTAT" else none)
      (fun k => if k = "BETA" then some "SIGNED_SUMSTAT"
        else if k = "MYZ" then some "INFO" else none)
      ["Beta"] []).1 "Beta" (by decide)).1⟩,
   ⟨by decide,
    (c6_resolution_priority
      (fun k => if k = "MYZ" then some "SIGNED_SUMSTAT" else none)
      (fun k => if k = "BETA" then some "SIGNED_SUMSTAT"
        else if k = "MYZ" then some "INFO" else none)
      ["Beta"] []).2 "MYZ" "SIGNED_SUMSTAT" (by decide) (by decide)⟩⟩

/-- C7: with alleles required, the allele-validity filter retains exactly
the rows whose concatenated pair `A1 ++ A2` is one of the eight valid
strings; every strand-ambiguous pair and every concatenation whose length
is not 2 (multi-character alleles) is outside the valid set and hence
removed. -/
theorem c7_allele_validity (a : PArgs) (ha : a.no_alleles = false)
    (rows : List Row) (r : Row) :
    (r ∈ qc_alleles a rows ↔
      r ∈ rows ∧ ∃ x y, r.a1 = some x ∧ r.a2 = some y ∧ (x ++ y) ∈ VALID_SNPS) ∧
    (∀ s, s ∈ (["AT", "TA", "CG", "GC", "AA", "CC", "GG", "TT"] : List String) →
      s ∉ VALID_SNPS) ∧
    (∀ x y : String, (x ++ y).length ≠ 2 → (x ++ y) ∉ VALID_SNPS) := by
  refine ⟨?_, by decide, ?_⟩
  · rw [qc_alleles, if_neg (by simp [ha]), List.mem_filter, allele_ok_iff]
  · intro x y hlen hmem
    simp only [VALID_SNPS, List.mem_cons, List.not_mem_nil, or_false] at hmem
    rcases hmem with h | h | h | h | h | h | h | h <;> rw [h] at hlen <;>
      exact hlen (by decide)

/-- C7 witness: the filter applied to a concrete valid row keeps it, and
concrete ambiguous and multi-character pairs are outside the valid set. -/
theorem c7_allele_validity_witness :
    (wargs.no_alleles = false ∧ wrow ∈ qc_alleles wargs [wrow]) ∧
    ("AT" ∉ VALID_SNPS) ∧ (("ACT" ++ "G") ∉ VALID_SNPS) :=
  ⟨⟨rfl, (c7_allele_validity wargs rfl [wrow] wrow).1.2
      ⟨by decide, "A", "C", rfl, rfl, by decide⟩⟩,
   (c7_allele_validity wargs rfl [wrow] wrow).2.1 "AT" (by decide),
   (c7_allele_validity wargs rfl [wrow] wrow).2.2 "ACT" "G" (by decide)⟩

/-- C9: the read phase ends with the unconditional
`with_column(col("N").cast(DataType::Int64))` of lines 329-333; whenever
no mapped raw header is literally `N`, this step fails, even for
configurations the N-determinability validation of lines 246-254 accepted
(such as sample size via the `--N` flag or via `N_CAS`/`N_CON`
columns). -/
theorem c9_cast_n_requires_literal_header (trans : List (String × String))
    (an acas acon : Option ℚ)
    (hval : n_determinable an acas acon (trans.map Prod.snd) = true)
    (hraw : "N" ∉ trans.map Prod.fst) :
    cast_n_step (trans.map Prod.fst) = Except.error "ColumnNotFound: N" := by
  have hcont : ¬ (((trans.map Prod.fst).contains "N") = true) :=
    fun hc => hraw (List.elem_iff.1 hc)
  unfold cast_n_step
  rw [if_neg hcont]

/-- C9 witness: a configuration with `N_CAS`/`N_CON` columns and no
`--N` flag passes validation, yet the mapped raw headers contain no
literal `N` and the cast step errors. -/
theorem c9_cast_n_requires_literal_header_witness :
    n_determinable none none none
      ([("RSID", "SNP"), ("PVAL", "P"), ("ZSCORE", "SIGNED_SUMSTAT"),
        ("NCASE", "N_CAS"), ("NCONTROL", "N_CON"), ("EA", "A1"),
        ("OA", "A2")].map Prod.snd) = true ∧
    "N" ∉ ([("RSID", "SNP"), ("PVAL", "P"), ("ZSCORE", "SIGNED_SUMSTAT"),
        ("NCASE", "N_CAS"), ("NCONTROL", "N_CON"), ("EA", "A1"),
        ("OA", "A2")].map Prod.fst) ∧
    cast_n_step ([("RSID", "SNP"), ("PVAL", "P"), ("ZSCORE", "SIGNED_SUMSTAT"),
        ("NCASE", "N_CAS"), ("NCONTROL", "N_CON"), ("EA", "A1"),
        ("OA", "A2")].map Prod.fst) = Except.error "ColumnNotFound: N" :=
  ⟨by decide, by decide,
   c9_cast_n_requires_literal_header
     [("RSID", "SNP"), ("PVAL", "P"), ("ZSCORE", "SIGNED_SUMSTAT"),
      ("NCASE", "N_CAS"), ("NCONTROL", "N_CON"), ("EA", "A1"), ("OA", "A2")]
     none none none (by decide) (by decide)⟩

/-- C3 counterexample: duplicate removal uses keep strategy `Any`, so a
run may retain the second occurrence of a duplicated SNP key instead of
the first.  On two rows sharing key `rs1`, the choice keeping the later
occurrence returns the second row, which differs from the first row the
claim requires. -/
theorem c3_first_occurrence_counterexample :
    qc_dup (fun _ => 1) [wrow, { wrow with n := some 8 }] = [{ wrow with n := some 8 }] ∧
    qc_dup (fun _ => 0) [wrow, { wrow with n := some 8 }] = [wrow] ∧
    ({ wrow with n := some 8 } : Row) ≠ wrow := by
  refine ⟨by decide, by decide, by decide⟩

/-- C3 (amended): duplicate removal retains, for every SNP identifier
appearing in its input, exactly one row with that identifier — the kept
occurrence is whichever the `Any` keep strategy selects, not necessarily
the first — and the retained rows keep their original relative order
(the output is a sublist of the input). -/
theorem c3_dup_unique_stable (sel : Option String → ℕ) (rows : List Row) :
    (qc_dup sel rows).Sublist rows ∧
    ∀ k, k ∈ rows.map Row.snp →
      ((qc_dup sel rows).filter (fun r => r.snp = k)).length = 1 :=
  ⟨qc_dup_sublist sel rows, fun _ hk => qc_dup_count_key sel rows hk⟩

/-- C3 witness: on the two-row duplicated input, the kept-second run
still retains exactly one row with the duplicated key, in order. -/
theorem c3_dup_unique_stable_witness :
    (qc_dup (fun _ => 1) [wrow, { wrow with n := some 8 }]).Sublist
      [wrow, { wrow with n := some 8 }] ∧
    (some "rs1") ∈ ([wrow, { wrow with n := some 8 }].map Row.snp) ∧
    ((qc_dup (fun _ => 1) [wrow, { wrow with n := some 8 }]).filter
      (fun r => r.snp = some "rs1")).length = 1 :=
  ⟨(c3_dup_unique_stable (fun _ => 1) [wrow, { wrow with n := some 8 }]).1,
   by decide,
   (c3_dup_unique_stable (fun _ => 1) [wrow, { wrow with n := some 8 }]).2
     (some "rs1") (by decide)⟩

/-- C4: on every successful run, each QC stage other than the reference
merge shrinks the row set (the column-drop step keeps the count), and the
drop counts — each computed by the source as an input/output difference —
sum with the final count back to the ingested count: exactly, when there
is no merge table; and separately on each side of the merge stage when
there is one (in particular for reference tables with duplicated SNP
keys, where the inner join can expand the row set). -/
theorem c4_monotone_accounting (c : Cols) (a : PArgs)
    (ma : Option (List (String × String))) (sel : Option String → ℕ)
    (rows out : List Row) (h : parse_dat c a ma sel rows = Except.ok out) :
    (qc_na c rows).length ≤ rows.length ∧
    (qc_info c a (qc_merge_opt ma (qc_na c rows))).length ≤
      (qc_merge_opt ma (qc_na c rows)).length ∧
    (qc_frq c a (qc_info c a (qc_merge_opt ma (qc_na c rows)))).length ≤
      (qc_info c a (qc_merge_opt ma (qc_na c rows))).length ∧
    (qc_dropcols c a (qc_frq c a (qc_info c a (qc_merge_opt ma (qc_na c rows))))).length =
      (qc_frq c a (qc_info c a (qc_merge_opt ma (qc_na c rows)))).length ∧
    (qc_p (qc_dropcols c a (qc_frq c a (qc_info c a (qc_merge_opt ma (qc_na c rows)))))).length ≤
      (qc_dropcols c a (qc_frq c a (qc_info c a (qc_merge_opt ma (qc_na c rows))))).length ∧
    (qc_pre_dup c a ma rows).length ≤
      (qc_p (qc_dropcols c a (qc_frq c a (qc_info c a (qc_merge_opt ma (qc_na c rows)))))).length ∧
    out.length ≤ (qc_pre_dup c a ma rows).length ∧
    (ma = none →
      (rows.length - (qc_na c rows).length) +
      ((qc_merge_opt ma (qc_na c rows)).length -
        (qc_info c a (qc_merge_opt ma (qc_na c rows))).length) +
      ((qc_info c a (qc_merge_opt ma (qc_na c rows))).length -
        (qc_frq c a (qc_info c a (qc_merge_opt ma (qc_na c rows)))).length) +
      ((qc_dropcols c a (qc_frq c a (qc_info c a (qc_merge_opt ma (qc_na c rows))))).length -
        (qc_p (qc_dropcols c a (qc_frq c a (qc_info c a
          (qc_merge_opt ma (qc_na c rows)))))).length) +
      ((qc_p (qc_dropcols c a (qc_frq c a (qc_info c a
          (qc_merge_opt ma (qc_na c rows)))))).length -
        (qc_pre_dup c a ma rows).length) +
      ((qc_pre_dup c a ma rows).length - out.length) + out.length = rows.length) ∧
    (ma.isSome →
      (rows.length - (qc_na c rows).length) + (qc_na c rows).length = rows.length ∧
      ((qc_merge_opt ma (qc_na c rows)).length -
        (qc_info c a (qc_merge_opt ma (qc_na c rows))).length) +
      ((qc_info c a (qc_merge_opt ma (qc_na c rows))).length -
        (qc_frq c a (qc_info c a (qc_merge_opt ma (qc_na c rows)))).length) +
      ((qc_dropcols c a (qc_frq c a (qc_info c a (qc_merge_opt ma (qc_na c rows))))).length -
        (qc_p (qc_dropcols c a (qc_frq c a (qc_info c a
          (qc_merge_opt ma (qc_na c rows)))))).length) +
      ((qc_p (qc_dropcols c a (qc_frq c a (qc_info c a
          (qc_merge_opt ma (qc_na c rows)))))).length -
        (qc_pre_dup c a ma rows).length) +
      ((qc_pre_dup c a ma rows).length - out.length) + out.length =
        (qc_merge_opt ma (qc_na c rows)).length) := by
  have hout : out = qc_dup sel (qc_pre_dup c a ma rows) := by
    simp only [parse_dat] at h
    split at h
    · exact absurd h (by simp)
    · simpa using h.symm
  have h1 : (qc_na c rows).length ≤ rows.length := List.length_filter_le _ _
  have h3 : (qc_info c a (qc_merge_opt ma (qc_na c rows))).length ≤
      (qc_merge_opt ma (qc_na c rows)).length := by
    unfold qc_info; split
    · exact List.length_filter_le _ _
    · exact le_rfl
  have h4 : (qc_frq c a (qc_info c a (qc_merge_opt ma (qc_na c rows)))).length ≤
      (qc_info c a (qc_merge_opt ma (qc_na c rows))).length := by
    unfold qc_frq; split
    · exact List.length_filter_le _ _
    · exact le_rfl
  have h4b : (qc_dropcols c a (qc_frq c a (qc_info c a
      (qc_merge_opt ma (qc_na c rows))))).length =
      (qc_frq c a (qc_info c a (qc_merge_opt ma (qc_na c rows)))).length :=
    List.length_map _ _
  have h5 : (qc_p (qc_dropcols c a (qc_frq c a (qc_info c a
      (qc_merge_opt ma (qc_na c rows)))))).length ≤
      (qc_dropcols c a (qc_frq c a (qc_info c a
        (qc_merge_opt ma (qc_na c rows))))).length :=
    List.length_filter_le _ _
  have h6 : (qc_pre_dup c a ma rows).length ≤
      (qc_p (qc_dropcols c a (qc_frq c a (qc_info c a
        (qc_merge_opt ma (qc_na c rows)))))).length := by
    unfold qc_pre_dup qc_alleles; split
    · exact le_rfl
    · exact List.length_filter_le _ _
  have h7 : out.length ≤ (qc_pre_dup c a ma rows).length := by
    rw [hout]
    exact (qc_dup_sublist sel _).length_le
  refine ⟨h1, h3, h4, h4b, h5, h6, h7, fun hma => ?_, fun _ => ?_⟩
  · subst hma
    simp only [qc_merge_opt] at h3 h4 h4b h5 h6 ⊢
    omega
  · omega

/-- C4 witness: a one-row input joined against a reference table with a
duplicated SNP key: the merge stage expands one row to two, and the
accounting identities hold on both sides of it. -/
theorem c4_monotone_accounting_witness :
    parse_dat wcols wargs (some [("rs1", "AC"), ("rs1", "AC")]) (fun _ => 0) [wrow] =
      Except.ok [{ wrow with ma := some "AC" }] ∧
    ((qc_merge_opt (some [("rs1", "AC"), ("rs1", "AC")]) (qc_na wcols [wrow])).length -
      (qc_info wcols wargs (qc_merge_opt (some [("rs1", "AC"), ("rs1", "AC")])
        (qc_na wcols [wrow]))).length) +
    ((qc_info wcols wargs (qc_merge_opt (some [("rs1", "AC"), ("rs1", "AC")])
        (qc_na wcols [wrow]))).length -
      (qc_frq wcols wargs (qc_info wcols wargs (qc_merge_opt
        (some [("rs1", "AC"), ("rs1", "AC")]) (qc_na wcols [wrow])))).length) +
    ((qc_dropcols wcols wargs (qc_frq wcols wargs (qc_info wcols wargs (qc_merge_opt
        (some [("rs1", "AC"), ("rs1", "AC")]) (qc_na wcols [wrow]))))).length -
      (qc_p (qc_dropcols wcols wargs (qc_frq wcols wargs (qc_info wcols wargs
        (qc_merge_opt (some [("rs1", "AC"), ("rs1", "AC")])
          (qc_na wcols [wrow])))))).length) +
    ((qc_p (qc_dropcols wcols wargs (qc_frq wcols wargs (qc_info wcols wargs
        (qc_merge_opt (some [("rs1", "AC"), ("rs1", "AC")])
          (qc_na wcols [wrow])))))).length -
      (qc_pre_dup wcols wargs (some [("rs1", "AC"), ("rs1", "AC")]) [wrow]).length) +
    ((qc_pre_dup wcols wargs (some [("rs1", "AC"), ("rs1", "AC")]) [wrow]).length -
      ([{ wrow with ma := some "AC" }] : List Row).length) +
    ([{ wrow with ma := some "AC" }] : List Row).length =
      (qc_merge_opt (some [("rs1", "AC"), ("rs1", "AC")]) (qc_na wcols [wrow])).length :=
  ⟨rfl,
   ((c4_monotone_accounting wcols wargs (some [("rs1", "AC"), ("rs1", "AC")])
      (fun _ => 0) [wrow] [{ wrow with ma := some "AC" }]
      rfl).2.2.2.2.2.2.2.2 rfl).2⟩

/-- C8: `parse_dat` fails with the fatal error exactly when zero rows
survive the filters; the source places the check after stage 7, and since
duplicate removal maps a non-empty row set to a non-empty row set, zero
rows after stage 8 is equivalent to zero rows after stage 7, so the error
fires if and only if zero rows survive through stage 8 — and whenever at
least one row survives stages 1-7, processing continues with a non-empty
result and without this error. -/
theorem c8_no_snps_remain (c : Cols) (a : PArgs)
    (ma : Option (List (String × String))) (sel : Option String → ℕ)
    (rows : List Row) :
    ((∃ e, parse_dat c a ma sel rows = Except.error e) ↔
      qc_pre_dup c a ma rows = []) ∧
    (qc_dup sel (qc_pre_dup c a ma rows) = [] ↔ qc_pre_dup c a ma rows = []) ∧
    (qc_pre_dup c a ma rows ≠ [] →
      parse_dat c a ma sel rows =
        Except.ok (qc_dup sel (qc_pre_dup c a ma rows)) ∧
      qc_dup sel (qc_pre_dup c a ma rows) ≠ []) := by
  by_cases hd : qc_pre_dup c a ma rows = []
  · have he : parse_dat c a ma sel rows =
        Except.error "After applying filters, no SNPs remain." := by
      unfold parse_dat
      rw [if_pos (List.isEmpty_iff.2 hd)]
    refine ⟨⟨fun _ => hd, fun _ => ⟨_, he⟩⟩, ?_, fun hne => absurd hd hne⟩
    rw [hd]
    simp [qc_dup]
  · have hok : parse_dat c a ma sel rows =
        Except.ok (qc_dup sel (qc_pre_dup c a ma rows)) := by
      unfold parse_dat
      rw [if_neg (fun hemp => hd (List.isEmpty_iff.1 hemp))]
    refine ⟨⟨fun ⟨e, he⟩ => ?_, fun h0 => absurd h0 hd⟩,
      ⟨fun h0 => absurd h0 (qc_dup_ne_nil sel hd), fun h0 => absurd h0 hd⟩,
      fun _ => ⟨hok, qc_dup_ne_nil sel hd⟩⟩
    rw [hok] at he
    exact absurd he (by simp)

/-- C8 witness: a one-row input survives the filters, so `parse_dat`
returns a non-empty result and no error. -/
theorem c8_no_snps_remain_witness :
    qc_pre_dup wcols wargs none [wrow] ≠ [] ∧
    parse_dat wcols wargs none (fun _ => 0) [wrow] =
      Except.ok (qc_dup (fun _ => 0) (qc_pre_dup wcols wargs none [wrow])) ∧
    qc_dup (fun _ => 0) (qc_pre_dup wcols wargs none [wrow]) ≠ [] :=
  ⟨by decide,
   ((c8_no_snps_remain wcols wargs none (fun _ => 0) [wrow]).2.2 (by decide)).1,
   ((c8_no_snps_remain wcols wargs none (fun _ => 0) [wrow]).2.2 (by decide)).2⟩

theorem psel_eq_props (m : Int) (ncas ncon : List Int)
    (h : ncas.length = ncon.length) :
    ((List.zip (List.zipWith (fun (a b : Int) => (a : ℚ) / (b : ℚ)) ncas
        (n_totals ncas ncon)) (n_totals ncas ncon)).filter
          (fun pn => pn.2 = m)).map Prod.fst =
    ((List.zip ncas ncon).filter (fun ab => ab.1 + ab.2 = m)).map
      (fun ab => (ab.1 : ℚ) / ((ab.1 : ℚ) + (ab.2 : ℚ))) := by
  induction ncas generalizing ncon with
  | nil =>
    cases ncon with
    | nil => rfl
    | cons b bs => simp at h
  | cons a as ih =>
    cases ncon with
    | nil => simp at h
    | cons b bs =>
      have h2 : as.length = bs.length := by simpa using h
      have ih2 := ih bs h2
      simp only [n_totals] at ih2 ⊢
      simp only [List.zipWith_cons_cons, List.zip_cons_cons, List.filter_cons]
      by_cases hm : a + b = m
      · rw [if_pos (decide_eq_true hm), if_pos (decide_eq_true hm)]
        simp only [List.map_cons]
        rw [ih2]
        norm_cast
      · rw [if_neg (by simpa using hm), if_neg (by simpa using hm)]
        exact ih2

/-- C5: with both `N_CAS` and `N_CON` columns present, the resolver
replaces `N` by the column of values `N_CAS / P_max`, where `P_max` is
the mean of the case proportion `N_CAS / (N_CAS + N_CON)` over exactly
the rows whose total equals the maximum observed total, and drops the
`N_CAS` and `N_CON` columns. -/
theorem c5_rescale_formula (f : NFrame) (ncas ncon : List Int)
    (h1 : f.ncas = some ncas) (h2 : f.ncon = some ncon)
    (hl : ncas.length = ncon.length) :
    (rescale_step f).n =
      some (NCol.floats (ncas.map (fun cv => (cv : ℚ) / p_max_spec ncas ncon))) ∧
    (rescale_step f).ncas = none ∧ (rescale_step f).ncon = none := by
  unfold rescale_step
  rw [h1, h2]
  refine ⟨?_, rfl, rfl⟩
  have hkey := psel_eq_props (((n_totals ncas ncon).max?).getD 0) ncas ncon hl
  simp only [process_n_cas_con, p_max_spec]
  rw [hkey]

/-- C5 witness: the spec example `N_CAS = [100, 200]`,
`N_CON = [100, 100]`: the maximum total is 300, its case proportion 2/3,
and the rescaled column is `[150, 300]`. -/
theorem c5_rescale_formula_witness :
    ([100, 200] : List Int).length = ([100, 100] : List Int).length ∧
    (rescale_step ⟨some [100, 200], some [100, 100], none, none, 2⟩).n =
      some (NCol.floats (([100, 200] : List Int).map
        (fun cv => (cv : ℚ) / p_max_spec [100, 200] [100, 100]))) ∧
    p_max_spec [100, 200] [100, 100] = 2 / 3 ∧
    ([100, 200] : List Int).map (fun cv => (cv : ℚ) / p_max_spec [100, 200] [100, 100]) =
      [150, 300] := by
  have hmax : ((n_totals [100, 200] [100, 100]).max?).getD 0 = (300 : Int) := by decide
  have hp : p_max_spec [100, 200] [100, 100] = 2 / 3 := by
    simp only [p_max_spec]
    rw [hmax]
    norm_num [List.zip_cons_cons, List.filter_cons, List.filter_nil]
  refine ⟨rfl,
    (c5_rescale_formula ⟨some [100, 200], some [100, 100], none, none, 2⟩
      [100, 200] [100, 100] rfl rfl rfl).1, hp, ?_⟩
  rw [hp]
  norm_num

theorem rescale_step_ncas_ncon {f : NFrame} {x y : List Int}
    (hx : f.ncas = some x) (hy : f.ncon = some y) :
    (rescale_step f).n = some (NCol.floats (process_n_cas_con x y)) := by
  simp [rescale_step, hx, hy]

/-- C10: on every successful `process_n` run, if `N` was rescaled from
`N_CAS`/`N_CON` columns or synthesized from the `--N` or
`--N-cas`/`--N-con` flags (i.e. ends up `Float64`), the pre-write
nonmissing-N count — which reads `N` with `.i64()?` before the output
file is created — returns an error; conversely it succeeds only when the
`N` column entered as `Int64` and was never rescaled, i.e. kept integer
type throughout. -/
theorem c10_write_gate (a : PNArgs) (f out : NFrame)
    (h : process_n a f = Except.ok out) :
    (((f.ncas.isSome && f.ncon.isSome) = true ∨ f.n = none) →
      ∃ e, nomiss_n_i64 out.n = Except.error e) ∧
    ((∃ len, nomiss_n_i64 out.n = Except.ok len) →
      ∃ xs ys, f.n = some (NCol.ints xs) ∧ out.n = some (NCol.ints ys) ∧
        ¬ ((f.ncas.isSome && f.ncon.isSome) = true)) := by
  simp only [process_n] at h
  rcases hn : f.n with - | c
  · -- N column absent: the run must synthesize a Float64 N or abort
    rw [hn] at h
    simp only [Option.isSome_none, Bool.false_eq_true, if_false, Bool.not_false,
      Bool.and_true, if_true] at h
    have hsynth : ∃ f2, synth_n a f2 = Except.ok out := by
      rcases hns : f.nstudy with - | xs
      · rw [hns] at h
        simp only [Option.isSome_none, Bool.false_eq_true, if_false] at h
        exact ⟨_, h⟩
      · rw [hns] at h
        simp only [Option.isSome_some, if_true] at h
        rcases hnb : nstudy_branch a (if (f.ncas.isSome && f.ncon.isSome) = true then rescale_step f else f) with e | f2
        · rw [hnb] at h; exact absurd h (by simp)
        · rw [hnb] at h; exact ⟨f2, h⟩
    obtain ⟨f2, hs⟩ := hsynth
    have hout : ∃ q, out.n = some (NCol.floats q) := by
      unfold synth_n at hs
      rcases han : a.n with - | nv
      · rw [han] at hs
        rcases hac : a.n_cas with - | ca <;> rcases hoc : a.n_con with - | co <;>
          rw [hac, hoc] at hs <;> simp at hs
        · exact ⟨_, by rw [← hs]⟩
      · rw [han] at hs
        simp at hs
        exact ⟨_, by rw [← hs]⟩
    obtain ⟨q, hq⟩ := hout
    constructor
    · intro _
      rw [hq]
      exact ⟨_, rfl⟩
    · rintro ⟨len, hlen⟩
      rw [hq] at hlen
      exact absurd hlen (by simp [nomiss_n_i64])
  · -- N column present: the n branch runs, synth is skipped
    rw [hn] at h
    simp only [Option.isSome_some, if_true, Bool.not_true, Bool.false_eq_true,
      if_false] at h
    by_cases hb : (f.ncas.isSome && f.ncon.isSome) = true
    · -- both N_CAS and N_CON present: N was rescaled to Float64
      rw [if_pos hb] at h
      rw [Bool.and_eq_true] at hb
      obtain ⟨x, hx⟩ := Option.isSome_iff_exists.1 hb.1
      obtain ⟨y, hy⟩ := Option.isSome_iff_exists.1 hb.2
      have hres := rescale_step_ncas_ncon hx hy
      unfold n_branch at h
      rcases hm : a.n_min with - | mv
      · rw [hm, hres] at h
        exact absurd h (by simp)
      · rw [hm, hres] at h
        simp only [] at h
        have hout : out =
            set_n (rescale_step f) (filter_n_ge mv (NCol.floats (process_n_cas_con x y))) := by
          simpa using h.symm
        constructor
        · intro _
          rw [hout]
          exact ⟨_, rfl⟩
        · rintro ⟨len, hlen⟩
          rw [hout] at hlen
          exact absurd hlen (by simp [set_n, filter_n_ge, nomiss_n_i64])
    · -- no rescale: the N column keeps its dtype through the filter
      rw [if_neg hb] at h
      unfold n_branch at h
      rw [hn] at h
      rcases hc : c with xs | xs
      · rcases hm : a.n_min with - | mv
        · rw [hm, hc] at h
          have hout : out = set_n f (filter_n_ge
              (quantile09 xs / (3 / 2)) (NCol.ints xs)) := by
            simpa using h.symm
          refine ⟨fun hant => ?_, fun _ => ?_⟩
          · rcases hant with h1 | h2
            · exact absurd h1 hb
            · exact absurd h2 (by simp)
          · exact ⟨xs, _, rfl, by rw [hout]; rfl, hb⟩
        · rw [hm, hc] at h
          have hout : out = set_n f (filter_n_ge mv (NCol.ints xs)) := by
            simpa using h.symm
          refine ⟨fun hant => ?_, fun _ => ?_⟩
          · rcases hant with h1 | h2
            · exact absurd h1 hb
            · exact absurd h2 (by simp)
          · exact ⟨xs, _, rfl, by rw [hout]; rfl, hb⟩
      · rcases hm : a.n_min with - | mv
        · rw [hm, hc] at h
          exact absurd h (by simp)
        · rw [hm, hc] at h
          have hout : out = set_n f (filter_n_ge mv (NCol.floats xs)) := by
            simpa using h.symm
          refine ⟨fun hant => ?_, fun hok => ?_⟩
          · rcases hant with h1 | h2
            · exact absurd h1 hb
            · exact absurd h2 (by simp)
          · rcases hok with ⟨len, hlen⟩
            rw [hout] at hlen
            exact absurd hlen (by simp [set_n, filter_n_ge, nomiss_n_i64])

/-- C10 witness: `--N 10` with no N column: `process_n` synthesizes a
Float64 N column of height 3 and the pre-write Int64 read errors. -/
theorem c10_write_gate_witness :
    process_n ⟨some 10, none, none, none, none⟩ ⟨none, none, none, none, 3⟩ =
      Except.ok ⟨none, none, some (NCol.floats [10, 10, 10]), none, 3⟩ ∧
    ∃ e, nomiss_n_i64
      (⟨none, none, some (NCol.floats [10, 10, 10]), none, 3⟩ : NFrame).n =
        Except.error e :=
  ⟨rfl,
   (c10_write_gate ⟨some 10, none, none, none, none⟩ ⟨none, none, none, none, 3⟩
      ⟨none, none, some (NCol.floats [10, 10, 10]), none, 3⟩ rfl).1
     (Or.inr rfl)⟩

end MS
